import Mathlib

/- Shallow embedding of lac1.py, the SMAC LAC-1 single axis controller driver.
   Serial byte streams are modelled as lists of characters, python floats as
   rationals, python exceptions as Except values, and the mutable object state
   of the LAC1 class as an explicit record threaded through each operation. -/

namespace Lac1

/-- ENC_COUNTS_PER_MM constant of lac1.py (encoder counts per mm). -/
def ENC_COUNTS_PER_MM : ℚ := 1000

/-- SERVO_LOOP_FREQ constant of lac1.py. -/
def SERVO_LOOP_FREQ : ℚ := 5000

/-- STAGE_TRAVEL_MM constant of lac1.py. -/
def STAGE_TRAVEL_MM : ℚ := 25

/-- STAGE_TRAVEL_ENC constant of lac1.py. -/
def STAGE_TRAVEL_ENC : ℚ := STAGE_TRAVEL_MM * ENC_COUNTS_PER_MM

/-- TRAVEL_SAFETY_FACTOR constant of lac1.py. -/
def TRAVEL_SAFETY_FACTOR : ℚ := 1

/-- WS_PERIOD_MS constant of lac1.py. -/
def WS_PERIOD_MS : ℤ := 25

/-- SERIAL_SEND_WAIT_SEC constant of lac1.py (0.100 seconds). -/
def SERIAL_SEND_WAIT_SEC : ℚ := 1/10

/-- SERIAL_MAX_LINE_LENGTH constant of lac1.py. -/
def SERIAL_MAX_LINE_LENGTH : ℕ := 127

/-- Python int() applied to a number: truncation toward zero. -/
def pyTrunc (q : ℚ) : ℤ := if 0 ≤ q then ⌊q⌋ else ⌈q⌉

/-- Exceptions the driver can raise. readTimeout is the Read Timed Out
    exception of _readline; deviceFault is the LAC-1 Error exception of
    _readline, carrying the text after the question mark; assertionError
    models a failed python assert statement with its message; serialError
    models an exception raised by the underlying pySerial write on a broken
    link. -/
inductive Err where
  | readTimeout : Err
  | deviceFault : String → Err
  | assertionError : String → Err
  | serialError : Err
  | typeError : Err
  | indexError : Err
  | valueError : Err
deriving DecidableEq, Repr

/-- Character loop of LAC1._readline: a linefeed is skipped, a carriage
    return ends the line, the prompt character ends the line (keeping the
    prompt in the line) when stop is true, every other character is appended.
    An exhausted stream means no further byte ever arrives, which the source
    turns into the Read Timed Out exception after its timeout tick budget. -/
def readlineAux (stop : Bool) : List Char → List Char → Except Err (List Char × List Char)
  | [], _ => Except.error Err.readTimeout
  | c :: rest, acc =>
    if c = '\n' then readlineAux stop rest acc
    else if c = '\r' then Except.ok (acc, rest)
    else if stop = true ∧ c = '>' then Except.ok (acc ++ [c], rest)
    else readlineAux stop rest (acc ++ [c])

/-- Error check at the end of LAC1._readline: a non empty line whose first
    character is the question mark raises the LAC-1 Error exception carrying
    the remainder of the line. -/
def checkLine (line : List Char) : Except Err (List Char) :=
  if line.head? = some '?' then
    Except.error (Err.deviceFault (String.mk line.tail))
  else Except.ok line

/-- LAC1._readline: read one line from the stream, then apply the device
    error check. Returns the line together with the unconsumed stream. -/
def readline (stop : Bool) (s : List Char) : Except Err (List Char × List Char) :=
  match readlineAux stop s [] with
  | Except.error e => Except.error e
  | Except.ok (line, rest) =>
    match checkLine line with
    | Except.error e => Except.error e
    | Except.ok l => Except.ok (l, rest)

theorem readlineAux_ok_length {stop : Bool} :
    ∀ {s acc line rest : List Char},
      readlineAux stop s acc = Except.ok (line, rest) → rest.length < s.length := by
  intro s
  induction s with
  | nil => intro acc line rest h; simp [readlineAux] at h
  | cons c cs ih =>
    intro acc line rest h
    simp only [readlineAux] at h
    by_cases h1 : c = '\n'
    · simp [h1] at h
      exact Nat.lt_trans (ih h) (by simp)
    · by_cases h2 : c = '\r'
      · simp [h1, h2] at h
        simp [h.2]
      · by_cases h3 : stop = true ∧ c = '>'
        · simp [h1, h2, h3] at h
          simp [h.2]
        · simp [h1, h2, h3] at h
          exact Nat.lt_trans (ih h) (by simp)

theorem readline_ok_length {stop : Bool} {s line rest : List Char}
    (h : readline stop s = Except.ok (line, rest)) : rest.length < s.length := by
  unfold readline at h
  cases haux : readlineAux stop s [] with
  | error e => simp [haux] at h
  | ok p =>
    obtain ⟨l, r⟩ := p
    simp only [haux] at h
    cases hc : checkLine l with
    | error e => simp [hc] at h
    | ok l2 =>
      simp only [hc, Except.ok.injEq, Prod.mk.injEq] at h
      obtain ⟨h1, h2⟩ := h
      subst h2
      exact readlineAux_ok_length haux

/-- Reply consuming loop of LAC1.sendcmds when wait is true: read lines until
    the line equal to the prompt arrives; every non empty line read before it
    is collected in arrival order. Errors from _readline propagate. The fuel
    argument only forces structural recursion: every _readline call consumes
    at least one character of the stream, so any fuel above the stream length
    is never exhausted (readRepliesFuel_congr below), and on an exhausted
    stream _readline itself produces the timeout. -/
def readRepliesFuel : ℕ → List Char → List (List Char) →
    Except Err (List (List Char))
  | 0, _, _ => Except.error Err.readTimeout
  | n + 1, s, acc =>
    match readline true s with
    | Except.error e => Except.error e
    | Except.ok (line, rest) =>
      if line = ['>'] then Except.ok acc
      else if line.isEmpty then readRepliesFuel n rest acc
      else readRepliesFuel n rest (acc ++ [line])

theorem readRepliesFuel_congr :
    ∀ {n m : ℕ} {s : List Char} {acc : List (List Char)},
      s.length < n → s.length < m →
      readRepliesFuel n s acc = readRepliesFuel m s acc := by
  intro n
  induction n with
  | zero => intro m s acc hn; omega
  | succ n ih =>
    intro m s acc hn hm
    cases m with
    | zero => omega
    | succ m =>
      simp only [readRepliesFuel]
      cases hr : readline true s with
      | error e => rfl
      | ok p =>
        obtain ⟨line, rest⟩ := p
        have hlen := readline_ok_length hr
        by_cases h1 : line = ['>']
        · simp [h1]
        · by_cases h2 : line.isEmpty
          · simp [h1, h2]; exact ih (by omega) (by omega)
          · simp [h1, h2]; exact ih (by omega) (by omega)

/-- Reply consuming phase of LAC1.sendcmds, started with an empty list. -/
def readReplies (s : List Char) : Except Err (List (List Char)) :=
  readRepliesFuel (s.length + 1) s []

/-- Python values that appear as sendcmds arguments. -/
inductive PyVal where
  | str : String → PyVal
  | int : ℤ → PyVal
  | float : ℚ → PyVal
  | none : PyVal
deriving DecidableEq, Repr

/-- Argument serialization in LAC1.sendcmds: None becomes the empty string,
    a float is first cast to int (truncation toward zero), every value then
    goes through str. -/
def argToStr : PyVal → String
  | PyVal.str s => s
  | PyVal.int n => toString n
  | PyVal.float q => toString (pyTrunc q)
  | PyVal.none => ""

/-- A sendcmds argument list: either a single already formed command string
    (the len(args) == 1 case) or a list of command and argument pairs. -/
inductive Batch where
  | single : String → Batch
  | pairs : List (String × PyVal) → Batch
deriving DecidableEq, Repr

/-- The tosend string of LAC1.sendcmds: commands joined with commas. -/
def serializeBatch : Batch → String
  | Batch.single c => c
  | Batch.pairs ps => String.intercalate "," (ps.map (fun p => p.1 ++ argToStr p.2))

/-- Echo stripping at the end of LAC1.sendcmds: with exactly one collected
    line the list is returned as is, otherwise the first line is dropped. -/
def echoStrip (datalines : List (List Char)) : List (List Char) :=
  if datalines.length = 1 then datalines else datalines.drop 1

/-- State of the underlying pySerial port. writeFails models a broken link on
    which any write raises. -/
structure PortState where
  writeFails : Bool
deriving DecidableEq, Repr

/-- Mutable state of a LAC1 object: the _port field (none once closed) and
    the _last_serial_send_time field. -/
structure LAC1State where
  port : Option PortState
  lastSerialSendTime : Option ℚ
deriving DecidableEq, Repr

/-- Object state right after the serial port is opened in LAC1.__init__:
    the rate limiter timestamp class attribute is still None. -/
def connectState (p : PortState) : LAC1State :=
  { port := some p, lastSerialSendTime := none }

/-- Outcome of one sendcmds call: the duration passed to the sleep function
    (none when no pacing sleep happens), the updated object state, the list
    of strings written to the port, and the returned value or raised
    exception. The python return value None is modelled as Option.none. -/
structure SendOutcome where
  sleep : Option ℚ
  st : LAC1State
  written : List String
  result : Except Err (Option (List String))

/-- Rate limiter comparison at the top of LAC1.sendcmds: with a recorded
    previous send time, sleep for the remaining part of SERIAL_SEND_WAIT_SEC
    when that interval has not yet elapsed. -/
def rateLimitSleep (last : Option ℚ) (now : ℚ) : Option ℚ :=
  match last with
  | Option.none => Option.none
  | Option.some t =>
    if 0 < SERIAL_SEND_WAIT_SEC - (now - t) then
      Option.some (SERIAL_SEND_WAIT_SEC - (now - t))
    else Option.none

/-- LAC1.sendcmds. now is the value of time.time() at the top of the call;
    reply is the byte stream the device produces in response. A None port
    returns immediately. Then the rate limit sleep runs, the batch is
    serialized, the input and output buffers are flushed (no bytes written),
    the line length assert runs, the line is written, and with wait true the
    reply stream is consumed until the prompt and the collected lines are
    returned after echo stripping; with wait false the rate limiter timestamp
    is updated to now and None is returned. -/
def sendcmds (st : LAC1State) (now : ℚ) (reply : List Char) (batch : Batch)
    (wait : Bool) : SendOutcome :=
  match st.port with
  | Option.none => ⟨Option.none, st, [], Except.ok Option.none⟩
  | Option.some p =>
    let sleep := rateLimitSleep st.lastSerialSendTime now
    let tosend := serializeBatch batch
    if tosend.length ≤ SERIAL_MAX_LINE_LENGTH then
      if p.writeFails then ⟨sleep, st, [], Except.error Err.serialError⟩
      else
        let written := [tosend ++ "\r"]
        if wait then
          match readReplies reply with
          | Except.error e => ⟨sleep, st, written, Except.error e⟩
          | Except.ok ds =>
            ⟨sleep, st, written, Except.ok (Option.some ((echoStrip ds).map String.mk))⟩
        else
          ⟨sleep, { st with lastSerialSendTime := some now }, written,
            Except.ok Option.none⟩
    else
      ⟨sleep, st, [],
        Except.error (Err.assertionError "Command exceeds allowed line length")⟩

/-- LAC1.close: with a port present, write two escape characters and the
    abort, motor off, echo on line, close the port and clear the _port field.
    There is no exception handler: a failing write propagates and the port
    field keeps its value. Returns the new state, the writes performed and
    the raised exception if any. -/
def close (st : LAC1State) : LAC1State × List String × Except Err Unit :=
  match st.port with
  | Option.none => (st, [], Except.ok ())
  | Option.some p =>
    if p.writeFails then (st, [], Except.error Err.serialError)
    else ({ st with port := Option.none }, ["\x1b", "\x1b", "AB,MF,EN\r"],
      Except.ok ())

/-- Command batch built by LAC1.move_absolute_enc: position mode, motor on,
    move absolute with the target cast through int(), go; with wait true the
    wait stop command is appended, and with getposition also true the tell
    position command is appended after it. -/
def moveBatch (pos_enc : ℚ) (wait getposition : Bool) : Batch :=
  Batch.pairs
    ([("PM", PyVal.str ""), ("MN", PyVal.str ""),
      ("MA", PyVal.int (pyTrunc pos_enc)), ("GO", PyVal.str "")]
     ++ (if wait then
          [("WS", PyVal.int WS_PERIOD_MS)]
          ++ (if getposition then [("TP", PyVal.str "")] else [])
         else []))

/-- Transmission phase of LAC1.move_absolute_enc: first the two asserts on
    the target (not above the travel limit, not negative, in that order; a
    python assert without a message raises AssertionError with an empty
    message), then the batch is handed to sendcmds. The wait keyword
    argument is not forwarded to sendcmds, so sendcmds always waits for the
    prompt here. The trailing return statement of the source function is
    modelled on top of this by move_absolute_enc_ret below. -/
def move_absolute_enc (st : LAC1State) (now : ℚ) (reply : List Char)
    (pos_enc : ℚ) (wait getposition : Bool) : SendOutcome :=
  if pos_enc ≤ STAGE_TRAVEL_ENC * TRAVEL_SAFETY_FACTOR then
    if 0 ≤ pos_enc then
      sendcmds st now reply (moveBatch pos_enc wait getposition) true
    else ⟨Option.none, st, [], Except.error (Err.assertionError "")⟩
  else ⟨Option.none, st, [], Except.error (Err.assertionError "")⟩

/-- LAC1.move_absolute_mm hands pos_mm * ENC_COUNTS_PER_MM to
    move_absolute_enc. -/
def move_absolute_mm (st : LAC1State) (now : ℚ) (reply : List Char)
    (pos_mm : ℚ) (wait getposition : Bool) : SendOutcome :=
  move_absolute_enc st now reply (pos_mm * ENC_COUNTS_PER_MM) wait getposition

/-- Encoder target computed by LAC1.move_absolute_um before the int() cast:
    pos_um * ENC_COUNTS_PER_MM / 1000. -/
def umTargetEncQ (pos_um : ℚ) : ℚ := pos_um * ENC_COUNTS_PER_MM / 1000

/-- LAC1.move_absolute_um: forces getposition to True and hands
    pos_um * ENC_COUNTS_PER_MM / 1000 to move_absolute_enc. -/
def move_absolute_um (st : LAC1State) (now : ℚ) (reply : List Char)
    (pos_um : ℚ) (wait : Bool) : SendOutcome :=
  move_absolute_enc st now reply (umTargetEncQ pos_um) wait true

/-- Python int() applied to a reply string: an optional minus sign followed
    by one or more decimal digits parses to that integer; any other string
    makes int() raise ValueError. (The builtin also tolerates surrounding
    whitespace and a plus sign, which device reply lines never contain.) -/
def digitsToNat (l : List Char) : Option ℕ :=
  if l = [] then Option.none
  else if l.all (fun c => c.isDigit) then
    some (l.foldl (fun acc c => 10 * acc + (c.toNat - ('0').toNat)) 0)
  else Option.none

/-- Python int() on a string, signed form: see digitsToNat. -/
def pyStrToInt (s : String) : Option ℤ :=
  match s.data with
  | '-' :: rest => (digitsToNat rest).map (fun n => -(n : ℤ))
  | l => (digitsToNat l).map (fun n => (n : ℤ))

/-- Outcome of a full move_absolute_enc call: like SendOutcome, but the
    returned value is the optional integer of the trailing return statement
    of the source function. -/
structure MoveOutcome where
  sleep : Option ℚ
  st : LAC1State
  written : List String
  result : Except Err (Option ℤ)

/-- Full LAC1.move_absolute_enc including the trailing return statement:
    after the transmission, when wait and getposition are both true the
    first returned line is parsed with int() and returned. Subscripting the
    None that sendcmds returns on a closed port raises TypeError, ret[0] on
    an empty reply list raises IndexError, and a first line int() cannot
    parse raises ValueError. When wait and getposition are not both true the
    function falls through and returns None. Exceptions raised earlier (the
    bound asserts or the transmission itself) propagate unchanged. -/
def move_absolute_enc_ret (st : LAC1State) (now : ℚ) (reply : List Char)
    (pos_enc : ℚ) (wait getposition : Bool) : MoveOutcome :=
  let o := move_absolute_enc st now reply pos_enc wait getposition
  { sleep := o.sleep, st := o.st, written := o.written,
    result :=
      match o.result with
      | Except.error e => Except.error e
      | Except.ok r =>
        if wait ∧ getposition then
          match r with
          | Option.none => Except.error Err.typeError
          | Option.some lines =>
            match lines with
            | [] => Except.error Err.indexError
            | l :: _ =>
              match pyStrToInt l with
              | Option.none => Except.error Err.valueError
              | Option.some n => Except.ok (Option.some n)
        else Except.ok Option.none }

/-- Argument attached to the MA command of a batch, when present. -/
def maArgOf : Batch → Option PyVal
  | Batch.single _ => Option.none
  | Batch.pairs ps => (ps.find? (fun p => p.1 = "MA")).map Prod.snd

/-- Encoder count transmitted by a move through move_absolute_mm: the int()
    cast of pos_mm * ENC_COUNTS_PER_MM performed inside move_absolute_enc. -/
def mmTargetEnc (pos_mm : ℚ) : ℤ := pyTrunc (pos_mm * ENC_COUNTS_PER_MM)

/-- LAC1.get_position_mm conversion: the encoder count reported by the
    device divided by ENC_COUNTS_PER_MM. -/
def encToMm (k : ℤ) : ℚ := (k : ℚ) / ENC_COUNTS_PER_MM

/-- Millimeter value read back after moving to pos_mm, for a device that
    holds the commanded count: the transmitted count converted back by
    get_position_mm. -/
def roundTripMm (pos_mm : ℚ) : ℚ := encToMm (mmTargetEnc pos_mm)

/-- One attempt of the loop in LAC1.get_position_enc: the result of
    sendcmds applied to the TP command with wait true, on the reply stream s
    produced by the device for this attempt. -/
def tpAttempt (st : LAC1State) (now : ℚ) (s : List Char) :
    Except Err (Option (List String)) :=
  (sendcmds st now s (Batch.single "TP") true).result

/-- Retry loop of LAC1.get_position_enc over the successive device reply
    streams: any raised exception is printed and swallowed and the loop runs
    again, an empty reply list also makes the loop run again, and a non empty
    reply list is returned. An exhausted stream list yields none: the loop is
    still running, so the call never returns. The middle case models a call
    on a closed port, where the python code raises TypeError on len(None);
    the theorems below only use states with an open port, where sendcmds
    never returns None. -/
def getPositionEncGo (st : LAC1State) (now : ℚ) :
    List (List Char) → Option (List String)
  | [] => Option.none
  | s :: rest =>
    match tpAttempt st now s with
    | Except.error _ => getPositionEncGo st now rest
    | Except.ok Option.none => Option.none
    | Except.ok (Option.some pos) =>
      if pos.length < 1 then getPositionEncGo st now rest else Option.some pos

/-- A reply line the device can emit as data: no carriage return, no
    linefeed, no prompt character inside it, and it does not start with the
    error marker. -/
def GoodLine (l : List Char) : Prop :=
  (∀ c ∈ l, c ≠ '\r' ∧ c ≠ '\n' ∧ c ≠ '>') ∧ l.head? ≠ some '?'

instance (l : List Char) : Decidable (GoodLine l) := by
  unfold GoodLine; infer_instance

/-- Byte stream of a device that emits the given lines, each terminated by a
    carriage return, followed by the ready prompt. -/
def encodeChars (ls : List (List Char)) : List Char :=
  (ls.map (fun l => l ++ ['\r'])).flatten ++ ['>']

/-- Byte stream of a device that emits the given reply lines then the ready
    prompt. -/
def encodeReply (lines : List String) : List Char :=
  encodeChars (lines.map String.data)

instance {e a : Type} [DecidableEq e] [DecidableEq a] : DecidableEq (Except e a) := by
  intro x y
  cases x <;> cases y
  case error.error p q =>
    exact if h : p = q then Decidable.isTrue (by rw [h]) else Decidable.isFalse (by simp [h])
  case ok.ok p q =>
    exact if h : p = q then Decidable.isTrue (by rw [h]) else Decidable.isFalse (by simp [h])
  all_goals exact Decidable.isFalse (by simp)

theorem readlineAux_clean {l : List Char}
    (h : ∀ c ∈ l, c ≠ '\r' ∧ c ≠ '\n' ∧ c ≠ '>') :
    ∀ (acc rest : List Char),
      readlineAux true (l ++ '\r' :: rest) acc = Except.ok (acc ++ l, rest) := by
  induction l with
  | nil => intro acc rest; simp [readlineAux]
  | cons c cs ih =>
    intro acc rest
    obtain ⟨h1, h2, h3⟩ := h c (by simp)
    have ih2 := ih (fun d hd => h d (by simp [hd])) (acc ++ [c]) rest
    simp only [List.cons_append, readlineAux, List.append_eq]
    rw [if_neg h2, if_neg h1,
      if_neg (show ¬(True ∧ c = '>') by simp [h3]), ih2]
    simp

theorem checkLine_ok {l : List Char} (h : l.head? ≠ some '?') :
    checkLine l = Except.ok l := by
  rw [checkLine, if_neg h]

theorem readline_data {l : List Char} (rest : List Char) (hg : GoodLine l) :
    readline true (l ++ '\r' :: rest) = Except.ok (l, rest) := by
  unfold readline
  rw [readlineAux_clean hg.1 [] rest]
  simp [checkLine_ok hg.2]

theorem readline_prompt (rest : List Char) :
    readline true ('>' :: rest) = Except.ok (['>'], rest) := rfl

theorem encodeChars_cons (l : List Char) (ls : List (List Char)) :
    encodeChars (l :: ls) = l ++ '\r' :: encodeChars ls := by
  simp [encodeChars]

theorem readRepliesFuel_encode {ls : List (List Char)}
    (h : ∀ l ∈ ls, GoodLine l) :
    ∀ (fuel : ℕ) (acc : List (List Char)), (encodeChars ls).length < fuel →
      readRepliesFuel fuel (encodeChars ls) acc
        = Except.ok (acc ++ ls.filter (fun l => !l.isEmpty)) := by
  induction ls with
  | nil =>
    intro fuel acc hfuel
    cases fuel with
    | zero => simp [encodeChars] at hfuel
    | succ n =>
      show readRepliesFuel (n + 1) ['>'] acc = _
      simp [readRepliesFuel, readline_prompt]
  | cons l ls ih =>
    intro fuel acc hfuel
    cases fuel with
    | zero => omega
    | succ n =>
      rw [encodeChars_cons] at hfuel ⊢
      have hgl : GoodLine l := h l (by simp)
      have hrest : ∀ x ∈ ls, GoodLine x := fun x hx => h x (by simp [hx])
      have hlen : (encodeChars ls).length < n := by
        simp at hfuel; omega
      simp only [readRepliesFuel, readline_data (encodeChars ls) hgl]
      have hnp : ¬(l = ['>']) := by
        intro he
        exact absurd rfl (hgl.1 '>' (by simp [he])).2.2
      rw [if_neg hnp]
      by_cases hemp : l.isEmpty
      · rw [if_pos hemp, ih hrest n acc hlen]
        have : l = [] := by cases l <;> simp_all
        simp [this]
      · rw [if_neg hemp, ih hrest n (acc ++ [l]) hlen]
        simp [hemp]

theorem readReplies_encode {ls : List (List Char)} (h : ∀ l ∈ ls, GoodLine l) :
    readReplies (encodeChars ls) = Except.ok (ls.filter (fun l => !l.isEmpty)) := by
  unfold readReplies
  rw [readRepliesFuel_encode h _ [] (by omega)]
  rfl

theorem string_mk_data (s : String) : String.mk s.data = s := rfl

theorem data_filter_nonempty (lines : List String) :
    (lines.map String.data).filter (fun l => !l.isEmpty)
      = (lines.filter (fun s => s ≠ "")).map String.data := by
  induction lines with
  | nil => rfl
  | cons s rest ih =>
    by_cases he : s = ""
    · subst he; simp [ih]
    · have hd : s.data ≠ [] := by
        intro hc
        exact he (by cases s with | mk d => simp at hc; simp [hc])
      simp only [List.map_cons, List.filter_cons]
      rw [show (!s.data.isEmpty) = true by cases hdata : s.data <;> simp_all]
      rw [show (decide (s ≠ "")) = true by simp [he]]
      simp [ih]

theorem echoStrip_map_data (F : List String) :
    (echoStrip (F.map String.data)).map String.mk
      = if F.length = 1 then F else F.drop 1 := by
  unfold echoStrip
  rw [List.length_map]
  by_cases h : F.length = 1
  · rw [if_pos h, if_pos h, List.map_map]
    simp [show String.mk ∘ String.data = id from funext string_mk_data]
  · rw [if_neg h, if_neg h, ← List.map_drop, List.map_map]
    simp [show String.mk ∘ String.data = id from funext string_mk_data]

/-- C1: for a sendcmds call with wait true, on a healthy open link whose
    device emits the given reply lines followed by the ready prompt, the call
    returns exactly the non empty reply lines in arrival order, except that
    the first one is dropped when two or more were received; a lone received
    line is returned unmodified. -/
theorem sendcmds_wait_echo_strip (st : LAC1State) (p : PortState) (now : ℚ)
    (batch : Batch) (lines : List String)
    (hport : st.port = some p) (hw : p.writeFails = false)
    (hlen : (serializeBatch batch).length ≤ SERIAL_MAX_LINE_LENGTH)
    (hlines : ∀ l ∈ lines, GoodLine l.data) :
    (sendcmds st now (encodeReply lines) batch true).result
      = Except.ok (Option.some
          (if (lines.filter (fun l => l ≠ "")).length = 1
           then lines.filter (fun l => l ≠ "")
           else (lines.filter (fun l => l ≠ "")).drop 1)) := by
  have henc : readReplies (encodeReply lines)
      = Except.ok ((lines.map String.data).filter (fun l => !l.isEmpty)) := by
    apply readReplies_encode
    intro l hl
    obtain ⟨x, hx, rfl⟩ := List.mem_map.mp hl
    exact hlines x hx
  simp only [sendcmds, hport, hw, if_pos hlen, Bool.false_eq_true, if_false,
    if_true, henc, data_filter_nonempty]
  rw [echoStrip_map_data]

theorem sendcmds_wait_echo_strip_witness :
    (sendcmds (connectState ⟨false⟩) 0 (encodeReply ["TP1000", "1000"])
        (Batch.single "TP") true).result = Except.ok (Option.some ["1000"])
    ∧ (sendcmds (connectState ⟨false⟩) 0 (encodeReply ["1000"])
        (Batch.single "TP") true).result = Except.ok (Option.some ["1000"]) := by
  constructor
  · rw [sendcmds_wait_echo_strip (connectState ⟨false⟩) ⟨false⟩ 0
      (Batch.single "TP") ["TP1000", "1000"] rfl rfl (by decide) (by decide)]
    decide
  · rw [sendcmds_wait_echo_strip (connectState ⟨false⟩) ⟨false⟩ 0
      (Batch.single "TP") ["1000"] rfl rfl (by decide) (by decide)]
    decide

/-- C6: a fully read reply line whose first character is the error marker
    makes _readline raise the device fault carrying the rest of the line as
    message, and the surrounding reply loop of sendcmds propagates that
    fault instead of treating the line as data. -/
theorem readline_device_fault (t rest : List Char)
    (h : ∀ c ∈ t, c ≠ '\r' ∧ c ≠ '\n' ∧ c ≠ '>') :
    readline true ('?' :: t ++ '\r' :: rest)
      = Except.error (Err.deviceFault (String.mk t))
    ∧ ∀ (fuel : ℕ) (acc : List (List Char)),
        readRepliesFuel (fuel + 1) ('?' :: t ++ '\r' :: rest) acc
          = Except.error (Err.deviceFault (String.mk t)) := by
  have haux : readlineAux true ('?' :: t ++ '\r' :: rest) []
      = Except.ok ('?' :: t, rest) := by
    show readlineAux true ('?' :: (t ++ '\r' :: rest)) [] = _
    simp only [readlineAux]
    rw [if_neg (by decide), if_neg (by decide),
      if_neg (show ¬(True ∧ ('?' : Char) = '>') by simp)]
    exact readlineAux_clean h ['?'] rest
  have hline : readline true ('?' :: t ++ '\r' :: rest)
      = Except.error (Err.deviceFault (String.mk t)) := by
    unfold readline
    rw [haux]
    simp [checkLine]
  refine ⟨hline, ?_⟩
  intro fuel acc
  simp only [readRepliesFuel, hline]

theorem readline_device_fault_witness :
    readline true ("?41\rXYZ".data) = Except.error (Err.deviceFault "41") := by
  have h := (readline_device_fault "41".data "XYZ".data (by decide)).1
  exact h

theorem readlineAux_error_timeout {stop : Bool} :
    ∀ {s acc : List Char} {e : Err},
      readlineAux stop s acc = Except.error e → e = Err.readTimeout := by
  intro s
  induction s with
  | nil => intro acc e h; simp [readlineAux] at h; exact h.symm
  | cons c cs ih =>
    intro acc e h
    simp only [readlineAux] at h
    by_cases h1 : c = '\n'
    · rw [if_pos h1] at h; exact ih h
    · rw [if_neg h1] at h
      by_cases h2 : c = '\r'
      · rw [if_pos h2] at h; simp at h
      · rw [if_neg h2] at h
        by_cases h3 : stop = true ∧ c = '>'
        · rw [if_pos h3] at h; simp at h
        · rw [if_neg h3] at h; exact ih h

theorem readline_error_cases {stop : Bool} {s : List Char} {e : Err}
    (h : readline stop s = Except.error e) :
    e = Err.readTimeout ∨ ∃ m, e = Err.deviceFault m := by
  unfold readline at h
  cases haux : readlineAux stop s [] with
  | error e2 =>
    rw [haux] at h
    simp at h
    exact Or.inl (h ▸ readlineAux_error_timeout haux)
  | ok p =>
    obtain ⟨line, rest⟩ := p
    rw [haux] at h
    simp only [checkLine] at h
    by_cases hq : line.head? = some '?'
    · rw [if_pos hq] at h
      simp at h
      exact Or.inr ⟨String.mk line.tail, h.symm⟩
    · rw [if_neg hq] at h
      simp at h

theorem readRepliesFuel_error_cases :
    ∀ {fuel : ℕ} {s : List Char} {acc : List (List Char)} {e : Err},
      readRepliesFuel fuel s acc = Except.error e →
      e = Err.readTimeout ∨ ∃ m, e = Err.deviceFault m := by
  intro fuel
  induction fuel with
  | zero =>
    intro s acc e h
    simp [readRepliesFuel] at h
    exact Or.inl h.symm
  | succ n ih =>
    intro s acc e h
    simp only [readRepliesFuel] at h
    cases hr : readline true s with
    | error e2 =>
      rw [hr] at h
      simp at h
      exact h ▸ readline_error_cases hr
    | ok p =>
      obtain ⟨line, rest⟩ := p
      simp only [hr] at h
      by_cases h1 : line = ['>']
      · simp [h1] at h
      · rw [if_neg h1] at h
        by_cases h2 : line.isEmpty
        · rw [if_pos h2] at h; exact ih h
        · rw [if_neg h2] at h; exact ih h

/-- C4: a batch whose serialized line is at most 127 bytes never produces
    the line length assertion (whatever else may go wrong), and a batch whose
    serialized line exceeds 127 bytes makes sendcmds raise the assertion with
    nothing written to the link. -/
theorem sendcmds_line_length_guard (st : LAC1State) (now : ℚ)
    (reply : List Char) (batch : Batch) (wait : Bool) :
    ((serializeBatch batch).length ≤ SERIAL_MAX_LINE_LENGTH →
      ∀ m, (sendcmds st now reply batch wait).result
        ≠ Except.error (Err.assertionError m))
    ∧ (SERIAL_MAX_LINE_LENGTH < (serializeBatch batch).length →
        st.port ≠ Option.none →
        (sendcmds st now reply batch wait).result
          = Except.error (Err.assertionError "Command exceeds allowed line length")
        ∧ (sendcmds st now reply batch wait).written = []) := by
  cases hport : st.port with
  | none =>
    refine ⟨fun _ m => by simp [sendcmds, hport], fun _ hp => absurd rfl hp⟩
  | some p =>
    constructor
    · intro hlen m
      simp only [sendcmds, hport, if_pos hlen]
      by_cases hw : p.writeFails
      · simp [hw]
      · simp only [Bool.not_eq_true] at hw
        simp only [hw, Bool.false_eq_true, if_false]
        cases wait with
        | false => simp
        | true =>
          simp only [if_true]
          cases hr : readReplies reply with
          | error e =>
            simp only [hr]
            intro hcontra
            have he : e = Err.assertionError m := by
              injection hcontra
            have hcases := readRepliesFuel_error_cases
              (show readRepliesFuel (reply.length + 1) reply [] = Except.error e
                from hr)
            rcases hcases with h1 | ⟨m2, h2⟩
            · rw [h1] at he; exact Err.noConfusion he
            · rw [h2] at he; exact Err.noConfusion he
          | ok ds => simp [hr]
    · intro hlen hp
      have hnot : ¬((serializeBatch batch).length ≤ SERIAL_MAX_LINE_LENGTH) := by
        omega
      constructor <;> simp [sendcmds, hport, hnot]

theorem sendcmds_line_length_guard_witness :
    ((sendcmds (connectState ⟨false⟩) 0 [] (Batch.single "TP") true).result
        ≠ Except.error (Err.assertionError "Command exceeds allowed line length"))
    ∧ (sendcmds (connectState ⟨false⟩) 0 []
          (Batch.single (String.mk (List.replicate 128 'A'))) true).result
        = Except.error (Err.assertionError "Command exceeds allowed line length")
    ∧ (sendcmds (connectState ⟨false⟩) 0 []
          (Batch.single (String.mk (List.replicate 128 'A'))) true).written = [] := by
  refine ⟨?_, ?_⟩
  · exact (sendcmds_line_length_guard (connectState ⟨false⟩) 0 []
      (Batch.single "TP") true).1 (by decide) _
  · exact (sendcmds_line_length_guard (connectState ⟨false⟩) 0 []
      (Batch.single (String.mk (List.replicate 128 'A'))) true).2
      (by simp [serializeBatch, SERIAL_MAX_LINE_LENGTH, String.length])
      (by decide)

/-- C5: an absolute move target inside the closed interval from 0 to the
    travel limit passes the two asserts and the call reduces to the sendcmds
    transmission of the move batch; a target outside the interval makes
    move_absolute_enc raise the assertion with unchanged state and nothing
    written, independently of the device reply stream. -/
theorem move_absolute_enc_bounds (st : LAC1State) (now : ℚ) (reply : List Char)
    (pos_enc : ℚ) (wait getposition : Bool) :
    (0 ≤ pos_enc ∧ pos_enc ≤ STAGE_TRAVEL_ENC * TRAVEL_SAFETY_FACTOR →
      move_absolute_enc st now reply pos_enc wait getposition
        = sendcmds st now reply (moveBatch pos_enc wait getposition) true)
    ∧ (¬(0 ≤ pos_enc ∧ pos_enc ≤ STAGE_TRAVEL_ENC * TRAVEL_SAFETY_FACTOR) →
        move_absolute_enc st now reply pos_enc wait getposition
          = ⟨Option.none, st, [], Except.error (Err.assertionError "")⟩) := by
  constructor
  · intro h
    rw [move_absolute_enc, if_pos h.2, if_pos h.1]
  · intro h
    rw [move_absolute_enc]
    by_cases h2 : pos_enc ≤ STAGE_TRAVEL_ENC * TRAVEL_SAFETY_FACTOR
    · have h0 : ¬(0 ≤ pos_enc) := fun hc => h ⟨hc, h2⟩
      rw [if_pos h2, if_neg h0]
    · rw [if_neg h2]

theorem move_absolute_enc_bounds_witness :
    move_absolute_enc (connectState ⟨false⟩) 0 ['>'] 25000 true false
      = sendcmds (connectState ⟨false⟩) 0 ['>'] (moveBatch 25000 true false) true
    ∧ move_absolute_enc (connectState ⟨false⟩) 0 ['>'] 25001 true false
      = ⟨Option.none, connectState ⟨false⟩, [],
          Except.error (Err.assertionError "")⟩
    ∧ move_absolute_enc (connectState ⟨false⟩) 0 ['>'] (-1/1000) true false
      = ⟨Option.none, connectState ⟨false⟩, [],
          Except.error (Err.assertionError "")⟩ := by
  refine ⟨?_, ?_, ?_⟩
  · exact (move_absolute_enc_bounds (connectState ⟨false⟩) 0 ['>'] 25000
      true false).1 (by constructor <;> norm_num [STAGE_TRAVEL_ENC,
        STAGE_TRAVEL_MM, ENC_COUNTS_PER_MM, TRAVEL_SAFETY_FACTOR])
  · exact (move_absolute_enc_bounds (connectState ⟨false⟩) 0 ['>'] 25001
      true false).2 (by push_neg; intro _; norm_num [STAGE_TRAVEL_ENC,
        STAGE_TRAVEL_MM, ENC_COUNTS_PER_MM, TRAVEL_SAFETY_FACTOR])
  · exact (move_absolute_enc_bounds (connectState ⟨false⟩) 0 ['>'] (-1/1000)
      true false).2 (by push_neg; intro hc; norm_num at hc)

/-- C3 counterexample: on a broken link, close propagates the write failure
    instead of swallowing it, so close can raise. -/
theorem close_raises_on_broken_link :
    (close ⟨some ⟨true⟩, Option.none⟩).2.2 = Except.error Err.serialError := rfl

/-- C3 amended: close succeeds exactly when no write on the port fails (in
    particular it is a no-op raising nothing when the port is already
    cleared); a successful close clears the port field, while a shutdown
    write failure propagates to the caller and leaves the state unchanged. -/
theorem close_result_characterization (st : LAC1State) :
    ((close st).2.2 = Except.ok () ↔ ∀ p, st.port = some p → p.writeFails = false)
    ∧ ((close st).2.2 = Except.ok () → (close st).1.port = Option.none)
    ∧ (∀ p, st.port = some p → p.writeFails = true →
        (close st).2.2 = Except.error Err.serialError ∧ (close st).1 = st) := by
  obtain ⟨port, last⟩ := st
  cases port with
  | none =>
    exact ⟨⟨fun _ p hp => Option.noConfusion hp, fun _ => rfl⟩,
      fun _ => rfl, fun p hp => Option.noConfusion hp⟩
  | some p =>
    obtain ⟨wf⟩ := p
    cases wf
    · refine ⟨⟨fun _ q hq => ?_, fun _ => rfl⟩, fun _ => rfl,
        fun q hq hqw => ?_⟩
      · injection hq with h2
        rw [← h2]
      · injection hq with h2
        rw [← h2] at hqw
        exact Bool.noConfusion hqw
    · refine ⟨⟨fun hok => Except.noConfusion hok, fun hall => ?_⟩,
        fun hok => Except.noConfusion hok, fun q hq _ => ⟨rfl, rfl⟩⟩
      have := hall ⟨true⟩ rfl
      exact Bool.noConfusion this

theorem close_result_characterization_witness :
    (close ⟨some ⟨false⟩, Option.none⟩).2.2 = Except.ok ()
    ∧ (close ⟨some ⟨false⟩, Option.none⟩).1.port = Option.none := by
  have hth := close_result_characterization ⟨some ⟨false⟩, Option.none⟩
  have hok : (close ⟨some ⟨false⟩, Option.none⟩).2.2 = Except.ok () :=
    hth.1.mpr (by intro p hp; injection hp with h2; rw [← h2])
  exact ⟨hok, hth.2.1 hok⟩

/-- C10 counterexample: after a close that returned normally (port handle
    cleared), an in-bounds absolute move with wait and getposition both true
    does not return None: sendcmds returns None on the closed port, the
    source then evaluates ret[0] on that None, and the call raises
    TypeError. This refutes the claim that every motion-API method built on
    sendcmds returns None after close. -/
theorem move_after_close_raises_typeerror :
    close ⟨some ⟨false⟩, Option.none⟩
      = (⟨Option.none, Option.none⟩, ["\x1b", "\x1b", "AB,MF,EN\r"],
          Except.ok ())
    ∧ (move_absolute_enc_ret ⟨Option.none, Option.none⟩ 0 ['>'] 7 true
        true).result = Except.error Err.typeError
    ∧ Except.error Err.typeError
        ≠ (Except.ok Option.none : Except Err (Option ℤ)) := by
  refine ⟨rfl, ?_, by decide⟩
  rw [move_absolute_enc_ret, move_absolute_enc,
    if_pos (by norm_num [STAGE_TRAVEL_ENC, STAGE_TRAVEL_MM,
      ENC_COUNTS_PER_MM, TRAVEL_SAFETY_FACTOR]),
    if_pos (by norm_num)]
  rfl

/-- C10 amended: once close has returned normally the port field is
    cleared, and every subsequent sendcmds call, for any argument batch and
    either wait mode, returns None immediately with nothing written, no
    reply consumed and no sleep. An in-bounds absolute move that does not
    index the reply (wait and getposition not both true) likewise returns
    None with nothing written; but a move with wait and getposition both
    true subscripts the None reply and raises TypeError instead of
    returning None (move_absolute_um, which forces getposition, and the
    position queries fail the same way). -/
theorem sendcmds_after_close (st st2 : LAC1State) (w : List String)
    (h : close st = (st2, w, Except.ok ())) :
    (∀ (now : ℚ) (reply : List Char) (batch : Batch) (wait : Bool),
      sendcmds st2 now reply batch wait
        = ⟨Option.none, st2, [], Except.ok Option.none⟩)
    ∧ (∀ (now : ℚ) (reply : List Char) (pos_enc : ℚ) (wait getposition : Bool),
        0 ≤ pos_enc → pos_enc ≤ STAGE_TRAVEL_ENC * TRAVEL_SAFETY_FACTOR →
        ¬(wait = true ∧ getposition = true) →
        (move_absolute_enc_ret st2 now reply pos_enc wait getposition).result
          = Except.ok Option.none
        ∧ (move_absolute_enc_ret st2 now reply pos_enc wait
            getposition).written = [])
    ∧ (∀ (now : ℚ) (reply : List Char) (pos_enc : ℚ),
        0 ≤ pos_enc → pos_enc ≤ STAGE_TRAVEL_ENC * TRAVEL_SAFETY_FACTOR →
        (move_absolute_enc_ret st2 now reply pos_enc true true).result
          = Except.error Err.typeError
        ∧ (move_absolute_enc_ret st2 now reply pos_enc true true).written
          = []) := by
  have hp2 : st2.port = Option.none := by
    cases hport : st.port with
    | none =>
      rw [close, hport] at h
      injection h with h1 h2
      rw [← h1, hport]
    | some p =>
      cases hw : p.writeFails
      · rw [close, hport] at h
        simp only [hw, Bool.false_eq_true, if_false] at h
        injection h with h1 h2
        rw [← h1]
      · rw [close, hport] at h
        simp only [hw, if_true] at h
        injection h with h1 h2
        injection h2 with h3 h4
        exact Except.noConfusion h4
  have hsend : ∀ (now : ℚ) (reply : List Char) (batch : Batch) (wait : Bool),
      sendcmds st2 now reply batch wait
        = ⟨Option.none, st2, [], Except.ok Option.none⟩ := by
    intro now reply batch wait
    rw [sendcmds, hp2]
  refine ⟨hsend, ?_, ?_⟩
  · intro now reply pos_enc wait getposition h0 h1 hng
    rw [move_absolute_enc_ret, move_absolute_enc, if_pos h1, if_pos h0, hsend]
    exact ⟨by simp [hng], rfl⟩
  · intro now reply pos_enc h0 h1
    rw [move_absolute_enc_ret, move_absolute_enc, if_pos h1, if_pos h0, hsend]
    exact ⟨rfl, rfl⟩

theorem sendcmds_after_close_witness :
    sendcmds ⟨Option.none, Option.none⟩ 0 ['>'] (Batch.single "TP") true
      = ⟨Option.none, ⟨Option.none, Option.none⟩, [], Except.ok Option.none⟩
    ∧ (move_absolute_enc_ret ⟨Option.none, Option.none⟩ 0 ['>'] 5 true
        false).result = Except.ok Option.none
    ∧ (move_absolute_enc_ret ⟨Option.none, Option.none⟩ 0 ['>'] 5 true
        true).result = Except.error Err.typeError := by
  have hth := sendcmds_after_close ⟨some ⟨false⟩, Option.none⟩
    ⟨Option.none, Option.none⟩ ["\x1b", "\x1b", "AB,MF,EN\r"] rfl
  have hb : (5 : ℚ) ≤ STAGE_TRAVEL_ENC * TRAVEL_SAFETY_FACTOR := by
    norm_num [STAGE_TRAVEL_ENC, STAGE_TRAVEL_MM, ENC_COUNTS_PER_MM,
      TRAVEL_SAFETY_FACTOR]
  exact ⟨hth.1 0 ['>'] (Batch.single "TP") true,
    (hth.2.1 0 ['>'] 5 true false (by norm_num) hb (by simp)).1,
    (hth.2.2 0 ['>'] 5 (by norm_num) hb).1⟩

/-- C9: the rate limiter timestamp of a fresh connection is empty; at the
    top of every sendcmds call on an open port it is read and compared, and
    the caller is put to sleep for the remaining part of the minimum
    interval exactly when that interval has not elapsed; after the call it
    carries the transmission time exactly when the transmission happened
    with wait false, and such a call returns None rather than reply lines. -/
theorem sendcmds_rate_limiter (p : PortState) (st : LAC1State) (now : ℚ)
    (reply : List Char) (batch : Batch) (wait : Bool)
    (hp : st.port = some p) :
    (connectState p).lastSerialSendTime = Option.none
    ∧ (st.lastSerialSendTime = Option.none →
        (sendcmds st now reply batch wait).sleep = Option.none)
    ∧ (∀ t, st.lastSerialSendTime = some t →
        (now - t < SERIAL_SEND_WAIT_SEC →
          (sendcmds st now reply batch wait).sleep
            = some (SERIAL_SEND_WAIT_SEC - (now - t)))
        ∧ (SERIAL_SEND_WAIT_SEC ≤ now - t →
            (sendcmds st now reply batch wait).sleep = Option.none))
    ∧ ((sendcmds st now reply batch wait).st.lastSerialSendTime
        = if wait = false
             ∧ (serializeBatch batch).length ≤ SERIAL_MAX_LINE_LENGTH
             ∧ p.writeFails = false
          then some now else st.lastSerialSendTime)
    ∧ (wait = false ∧ (serializeBatch batch).length ≤ SERIAL_MAX_LINE_LENGTH
         ∧ p.writeFails = false →
        (sendcmds st now reply batch wait).result = Except.ok Option.none) := by
  have hsleep : (sendcmds st now reply batch wait).sleep
      = rateLimitSleep st.lastSerialSendTime now := by
    simp only [sendcmds, hp]
    by_cases hlen : (serializeBatch batch).length ≤ SERIAL_MAX_LINE_LENGTH
    · rw [if_pos hlen]
      by_cases hw : p.writeFails = true
      · simp [hw]
      · simp only [Bool.not_eq_true] at hw
        simp only [hw, Bool.false_eq_true, if_false]
        cases wait with
        | false => simp
        | true =>
          simp only [if_true]
          cases hr : readReplies reply <;> simp [hr]
    · rw [if_neg hlen]
  refine ⟨rfl, ?_, ?_, ?_, ?_⟩
  · intro hnone
    rw [hsleep, hnone]
    rfl
  · intro t ht
    rw [hsleep, ht]
    constructor
    · intro hlt
      simp only [rateLimitSleep]
      rw [if_pos (by linarith)]
    · intro hge
      simp only [rateLimitSleep]
      rw [if_neg (by linarith)]
  · by_cases hcond : wait = false
      ∧ (serializeBatch batch).length ≤ SERIAL_MAX_LINE_LENGTH
      ∧ p.writeFails = false
    · obtain ⟨hwt, hlen, hwf⟩ := hcond
      rw [if_pos ⟨hwt, hlen, hwf⟩]
      subst hwt
      simp only [sendcmds, hp, if_pos hlen, hwf, Bool.false_eq_true, if_false]
    · rw [if_neg hcond]
      simp only [sendcmds, hp]
      by_cases hlen : (serializeBatch batch).length ≤ SERIAL_MAX_LINE_LENGTH
      · rw [if_pos hlen]
        by_cases hw : p.writeFails = true
        · simp [hw]
        · simp only [Bool.not_eq_true] at hw
          simp only [hw, Bool.false_eq_true, if_false]
          cases wait with
          | false => exact absurd ⟨rfl, hlen, hw⟩ hcond
          | true =>
            simp only [if_true]
            cases hr : readReplies reply <;> simp [hr]
      · rw [if_neg hlen]
  · intro ⟨hwt, hlen, hwf⟩
    subst hwt
    simp only [sendcmds, hp, if_pos hlen, hwf, Bool.false_eq_true, if_false]

theorem sendcmds_rate_limiter_witness :
    (sendcmds ⟨some ⟨false⟩, some 0⟩ (1/20) [] (Batch.single "TP") false).sleep
      = some (1/20)
    ∧ (sendcmds ⟨some ⟨false⟩, some 0⟩ (1/20) [] (Batch.single "TP")
        false).st.lastSerialSendTime = some (1/20)
    ∧ (sendcmds ⟨some ⟨false⟩, some 0⟩ (1/20) [] (Batch.single "TP")
        false).result = Except.ok Option.none := by
  have hth := sendcmds_rate_limiter ⟨false⟩ ⟨some ⟨false⟩, some 0⟩ (1/20) []
    (Batch.single "TP") false rfl
  refine ⟨?_, ?_, ?_⟩
  · rw [(hth.2.2.1 0 rfl).1 (by norm_num [SERIAL_SEND_WAIT_SEC])]
    norm_num [SERIAL_SEND_WAIT_SEC]
  · rw [hth.2.2.2.1, if_pos ⟨rfl, by decide, rfl⟩]
  · exact hth.2.2.2.2 ⟨rfl, by decide, rfl⟩

/-- C2 counterexample: the first attempt of the position query loop raises
    the device fault for the reply line ?41, yet the loop swallows it and
    returns the data of the next attempt; with only fault attempts the loop
    keeps retrying and never produces a value. Under the claim, a device
    fault would not be retried. -/
theorem get_position_enc_retries_device_fault :
    tpAttempt (connectState ⟨false⟩) 0 ("?41\r".data)
      = Except.error (Err.deviceFault "41")
    ∧ getPositionEncGo (connectState ⟨false⟩) 0
        ["?41\r".data, "TP\r1000\r>".data] = some ["1000"]
    ∧ getPositionEncGo (connectState ⟨false⟩) 0 ["?41\r".data]
      = Option.none := by
  exact ⟨by decide, by decide, by decide⟩

/-- C2 amended: the position query loop retries after any raised exception,
    device faults included, and under attempts that all raise it retries
    forever, never producing a value. -/
theorem get_position_enc_retry (st : LAC1State) (now : ℚ) :
    (∀ (s : List Char) (streams : List (List Char)) (e : Err),
      tpAttempt st now s = Except.error e →
      getPositionEncGo st now (s :: streams) = getPositionEncGo st now streams)
    ∧ (∀ streams : List (List Char),
        (∀ s ∈ streams, ∃ e, tpAttempt st now s = Except.error e) →
        getPositionEncGo st now streams = Option.none) := by
  constructor
  · intro s streams e he
    simp only [getPositionEncGo, he]
  · intro streams h
    induction streams with
    | nil => rfl
    | cons s rest ih =>
      obtain ⟨e, he⟩ := h s (by simp)
      simp only [getPositionEncGo, he]
      exact ih (fun x hx => h x (by simp [hx]))

theorem get_position_enc_retry_witness :
    getPositionEncGo (connectState ⟨false⟩) 0 ["?41\r".data, "1000\r>".data]
      = getPositionEncGo (connectState ⟨false⟩) 0 ["1000\r>".data] := by
  exact (get_position_enc_retry (connectState ⟨false⟩) 0).1 ("?41\r".data)
    ["1000\r>".data] (Err.deviceFault "41") (by decide)

theorem pyTrunc_nonneg_floor {q : ℚ} (h : 0 ≤ q) : pyTrunc q = ⌊q⌋ :=
  if_pos h

theorem pyTrunc_intCast (k : ℤ) : pyTrunc (k : ℚ) = k := by
  by_cases h : (0:ℚ) ≤ (k : ℚ)
  · rw [pyTrunc, if_pos h, Int.floor_intCast]
  · rw [pyTrunc, if_neg h, Int.ceil_intCast]

theorem maArgOf_moveBatch (q : ℚ) (w g : Bool) :
    maArgOf (moveBatch q w g) = some (PyVal.int (pyTrunc q)) := by
  cases w <;> cases g <;> rfl

/-- C7 amended: a millimeter move transmits the truncation (the floor, for
    the nonnegative targets the bound check admits) of pos_mm times the
    counts per mm scale, not the nearest count; the position read back for a
    device resting at the commanded count differs from the request by at
    most 1/countsPerMm; and integer count positions round trip losslessly
    through the millimeter conversion. -/
theorem move_mm_round_trip (pos_mm : ℚ) (k : ℤ) (w g : Bool)
    (h0 : 0 ≤ pos_mm) :
    maArgOf (moveBatch (pos_mm * ENC_COUNTS_PER_MM) w g)
      = some (PyVal.int (mmTargetEnc pos_mm))
    ∧ roundTripMm pos_mm
      = ((⌊pos_mm * ENC_COUNTS_PER_MM⌋ : ℤ) : ℚ) / ENC_COUNTS_PER_MM
    ∧ |roundTripMm pos_mm - pos_mm| ≤ 1 / ENC_COUNTS_PER_MM
    ∧ mmTargetEnc (encToMm k) = k := by
  have hcpm : (0:ℚ) < ENC_COUNTS_PER_MM := by norm_num [ENC_COUNTS_PER_MM]
  have hq : 0 ≤ pos_mm * ENC_COUNTS_PER_MM := mul_nonneg h0 (le_of_lt hcpm)
  refine ⟨maArgOf_moveBatch _ w g, ?_, ?_, ?_⟩
  · rw [roundTripMm, mmTargetEnc, encToMm, pyTrunc_nonneg_floor hq]
  · rw [roundTripMm, mmTargetEnc, encToMm, pyTrunc_nonneg_floor hq, abs_le]
    have hfl := Int.floor_le (pos_mm * ENC_COUNTS_PER_MM)
    have hfl2 := Int.sub_one_lt_floor (pos_mm * ENC_COUNTS_PER_MM)
    simp only [ENC_COUNTS_PER_MM] at hfl hfl2 ⊢
    constructor <;> linarith
  · rw [mmTargetEnc, encToMm,
      div_mul_cancel₀ ((k : ℚ)) (ne_of_gt hcpm), pyTrunc_intCast]

theorem move_mm_round_trip_witness :
    |roundTripMm (1/2) - 1/2| ≤ 1 / ENC_COUNTS_PER_MM
    ∧ mmTargetEnc (encToMm 7) = 7 :=
  ⟨(move_mm_round_trip (1/2) 7 true true (by norm_num)).2.2.1,
   (move_mm_round_trip (1/2) 7 true true (by norm_num)).2.2.2⟩

/-- C7 counterexample: at 3/4096 mm, an in-bounds target, the commanded
    count is the truncation 0, not the nearest count 1, so the read back
    millimeter value is 0 rather than the nearest-count value 1/1000. -/
theorem move_mm_round_trip_not_nearest :
    (0 ≤ (3/4096 : ℚ) ∧ (3/4096 : ℚ) ≤ STAGE_TRAVEL_MM)
    ∧ roundTripMm (3/4096) = 0
    ∧ ((round ((3/4096 : ℚ) * ENC_COUNTS_PER_MM) : ℤ) : ℚ) / ENC_COUNTS_PER_MM
      = 1/1000
    ∧ roundTripMm (3/4096)
      ≠ ((round ((3/4096 : ℚ) * ENC_COUNTS_PER_MM) : ℤ) : ℚ)
          / ENC_COUNTS_PER_MM := by
  have h1 : roundTripMm (3/4096) = 0 := by
    rw [roundTripMm, mmTargetEnc,
      pyTrunc_nonneg_floor (by norm_num [ENC_COUNTS_PER_MM]),
      show ⌊(3/4096 : ℚ) * ENC_COUNTS_PER_MM⌋ = 0 from by
        rw [Int.floor_eq_iff] <;> norm_num [ENC_COUNTS_PER_MM]]
    simp [encToMm]
  have h2 : (round ((3/4096 : ℚ) * ENC_COUNTS_PER_MM) : ℤ) = 1 := by
    rw [round_eq, Int.floor_eq_iff] <;> norm_num [ENC_COUNTS_PER_MM]
  refine ⟨⟨by norm_num, by norm_num [STAGE_TRAVEL_MM]⟩, h1, ?_, ?_⟩
  · rw [h2]; norm_num [ENC_COUNTS_PER_MM]
  · rw [h1, h2]; norm_num [ENC_COUNTS_PER_MM]

/-- C8 amended: the micrometer entry point transmits the truncation toward
    zero of pos_um * countsPerMm / 1000 (which equals the truncation of
    pos_um at this scale), not the rounding to the nearest count. -/
theorem move_um_transmits_trunc (pos_um : ℚ) (w g : Bool) :
    maArgOf (moveBatch (umTargetEncQ pos_um) w g)
      = some (PyVal.int (pyTrunc (pos_um * ENC_COUNTS_PER_MM / 1000)))
    ∧ pyTrunc (pos_um * ENC_COUNTS_PER_MM / 1000) = pyTrunc pos_um := by
  constructor
  · exact maArgOf_moveBatch _ w g
  · rw [show pos_um * ENC_COUNTS_PER_MM / 1000 = pos_um from by
      norm_num [ENC_COUNTS_PER_MM]]

/-- C8 counterexample: at 1.75 micrometers the code transmits count 1, the
    truncation, while the claim formula round(pos_um * countsPerMm / 1000)
    gives 2. -/
theorem move_um_transmits_trunc_counterexample :
    (move_absolute_um (connectState ⟨false⟩) 0 ['>'] (7/4) true).written
      = ["PM,MN,MA1,GO,WS25,TP\r"]
    ∧ pyTrunc (umTargetEncQ (7/4)) = 1
    ∧ (round (umTargetEncQ (7/4)) : ℤ) = 2
    ∧ pyTrunc (umTargetEncQ (7/4)) ≠ (round (umTargetEncQ (7/4)) : ℤ) := by
  have hval : umTargetEncQ (7/4) = 7/4 := by
    norm_num [umTargetEncQ, ENC_COUNTS_PER_MM]
  have htr : pyTrunc ((7:ℚ)/4) = 1 := by
    rw [pyTrunc, if_pos (by norm_num), Int.floor_eq_iff]
    norm_num
  have hrd : (round ((7:ℚ)/4) : ℤ) = 2 := by
    rw [round_eq, Int.floor_eq_iff]
    norm_num
  refine ⟨?_, ?_, ?_, ?_⟩
  · rw [move_absolute_um, hval, move_absolute_enc,
      if_pos (by norm_num [STAGE_TRAVEL_ENC, STAGE_TRAVEL_MM,
        ENC_COUNTS_PER_MM, TRAVEL_SAFETY_FACTOR]),
      if_pos (by norm_num)]
    simp only [moveBatch, htr]
    decide
  · rw [hval, htr]
  · rw [hval, hrd]
  · rw [hval, htr, hrd]
    decide
